import Mathlib

/-!
Verification development for the AutoGBD data-harmonization pipeline.

The definitions below are a shallow embedding of the cleaning stage
(autogbd/cleaning/rules.py), the quality stage (autogbd/quality/checks.py)
and the mapping engine (autogbd/mapping/engine.py).  Tables are lists of
rows, missing cells are `none`, pandas float scores and thresholds are
rationals, and Python exceptions are `Except String`.  External
collaborators (the filesystem holding mapping files, the rapidfuzz scorer
and the sentence-transformer suggester) are parameters of the embedded
functions, exactly as the repository treats them as external resources.
-/

namespace AutoGBD

/-! ## Cleaning stage: `_standardize_ages` (cleaning/rules.py) -/

/-- A cell of the age column before numeric coercion: a number, a free-form
string, or a missing value (NaN). -/
inductive AgeCell
  | num (n : Int)
  | str (s : String)
  | na
deriving DecidableEq

/-- Embeds `pd.to_numeric(..., errors="coerce")` on one cell: numbers pass
through, parseable strings are parsed, everything else becomes missing. -/
def toNumeric : AgeCell → Option Int
  | .num n => some n
  | .str s => s.toInt?
  | .na => none

/-- The invalid-age mask `(data[column] < min_age) | (data[column] > max_age)`;
missing values compare false, as NaN does in pandas. -/
def ageInvalid (minAge maxAge : Int) : Option Int → Bool
  | some v => decide (v < minAge) || decide (v > maxAge)
  | none => false

/-- Embeds `_standardize_ages`: coerce the age column to numeric, then, when
any value is out of range, either drop the offending rows
(`remove_invalid=True`) or set them to missing. -/
def standardize_ages (minAge maxAge : Int) (removeInvalid : Bool)
    (ages : List AgeCell) : List (Option Int) :=
  let numeric := ages.map toNumeric
  if numeric.any (ageInvalid minAge maxAge) then
    if removeInvalid then numeric.filter (fun a => ! ageInvalid minAge maxAge a)
    else numeric.map (fun a => if ageInvalid minAge maxAge a then none else a)
  else numeric

/-! ## Cleaning stage: `apply_rules` control flow (cleaning/rules.py) -/

/-- A configured cleaning rule: name plus enabled flag (the parameters are
part of the rule function itself in this embedding). -/
structure CleaningRule where
  name : String
  enabled : Bool

/-- Provenance entries produced by the cleaning stage. -/
inductive CLog
  | ruleSkipped (name : String)
  | ruleApplied (name : String) (rowsAffected : Nat)
  | ruleError (name : String) (msg : String)
  | cleaningComplete (initialRows finalRows : Nat)
deriving DecidableEq

/-- `abs(rows_after - rows_before)` on naturals. -/
def natDist (a b : Nat) : Nat := max a b - min a b

/-- The rule loop of `CleaningEngine.apply_rules`, parameterized by the rule
library `lib` (the `self._rules` dict): disabled rules are skipped silently,
unknown names are logged as `rule_skipped`, a raising rule is logged as
`rule_error` and the exception propagates, and each applied rule is logged
with `rows_affected`. -/
def runRules {α : Type} (lib : String → Option (List α → Except String (List α))) :
    List CleaningRule → List α → Except String (List α) × List CLog
  | [], t => (.ok t, [])
  | r :: rest, t =>
    if r.enabled = false then runRules lib rest t
    else
      match lib r.name with
      | none =>
        let res := runRules lib rest t
        (res.1, .ruleSkipped r.name :: res.2)
      | some f =>
        match f t with
        | .error e => (.error e, [.ruleError r.name e])
        | .ok t1 =>
          let res := runRules lib rest t1
          (res.1, .ruleApplied r.name (natDist t1.length t.length) :: res.2)

/-- Embeds `CleaningEngine.apply_rules`: run the rule loop, then log the
`cleaning_complete` summary (skipped when a rule raised, because the
exception propagates before the summary line runs). -/
def apply_rules {α : Type} (lib : String → Option (List α → Except String (List α)))
    (rules : List CleaningRule) (t : List α) : Except String (List α) × List CLog :=
  match runRules lib rules t with
  | (.ok t1, logs) => (.ok t1, logs ++ [.cleaningComplete t.length t1.length])
  | (.error e, logs) => (.error e, logs)

/-! ## Quality stage (quality/checks.py) -/

/-- A table as seen by the quality scorer: a column count and, per row, the
missingness flag of each cell (`true` = NaN). -/
structure QTable where
  ncols : Nat
  cells : List (List Bool)
deriving DecidableEq

/-- `data.isna().sum().sum()`. -/
def missingCount (t : QTable) : Nat :=
  (t.cells.map (fun row => row.countP (fun b => b))).sum

/-- One issue reported by a quality check. -/
structure Issue where
  check : String
  severity : String
  message : String
deriving DecidableEq

/-- A configured quality check: name plus enabled flag. -/
structure QualityCheck where
  name : String
  enabled : Bool

/-- The result dictionary of `QualityChecker.run_checks`. -/
structure QResult where
  totalRows : Nat
  checksRun : List String
  issuesFound : List Issue
  qualityScore : Rat
deriving DecidableEq

/-- The check loop of `run_checks`, parameterized by the check library
(the `self._checks` dict): disabled and unknown checks are skipped, a check
that raises contributes a synthetic error-severity issue instead of
aborting, and issues accumulate in execution order. -/
def gatherIssues (lib : String → Option (QTable → Except String (List Issue)))
    (data : QTable) : List QualityCheck → List String × List Issue
  | [] => ([], [])
  | c :: rest =>
    if c.enabled = false then gatherIssues lib data rest
    else
      match lib c.name with
      | none => gatherIssues lib data rest
      | some f =>
        let res := gatherIssues lib data rest
        match f data with
        | .ok iss => (c.name :: res.1, iss ++ res.2)
        | .error e =>
          (res.1, ⟨c.name, "error", "Check failed with error: " ++ e⟩ :: res.2)

/-- The penalty loop of `_calculate_quality_score`: start at 100, subtract
10 per error-severity issue and 2 per warning-severity issue. -/
def issuePenalty (issues : List Issue) : Rat :=
  issues.foldl
    (fun s i =>
      if i.severity = "error" then s - 10
      else if i.severity = "warning" then s - 2
      else s)
    100

/-- Embeds `_calculate_quality_score`: an empty table short-circuits to 0;
otherwise blend the penalty score with the completeness bonus and clamp the
result to the interval from 0 to 100. -/
def calculateQualityScore (data : QTable) (issues : List Issue) : Rat :=
  if data.cells.length = 0 then 0
  else
    let score := issuePenalty issues
    let completeness : Rat :=
      1 - (missingCount data : Rat) / ((data.cells.length : Rat) * (data.ncols : Rat))
    let blended := score * (7 / 10) + completeness * 100 * (3 / 10)
    max 0 (min 100 blended)

/-- Embeds `QualityChecker.run_checks`. -/
def run_checks (lib : String → Option (QTable → Except String (List Issue)))
    (data : QTable) (checks : List QualityCheck) : QResult :=
  let res := gatherIssues lib data checks
  ⟨data.cells.length, res.1, res.2, calculateQualityScore data res.2⟩

/-! ## Mapping engine (mapping/engine.py) -/

/-- A data row as the mapping engine sees it: the source-code cell and the
target-cause cell; `none` is the NaN / unresolved marker. -/
structure MRow where
  src : Option String
  tgt : Option String
deriving DecidableEq

/-- The three mapping-source kinds dispatched in `apply_mappings`. -/
inductive SourceType
  | direct
  | fuzzy
  | ai
deriving DecidableEq

/-- A configured mapping source (core/config_loader.py `MappingSource`). -/
structure MappingSource where
  type : SourceType
  enabled : Bool
  file : Option String
  threshold : Rat

/-- A parsed mapping CSV as `pd.read_csv` delivers it: the column names plus
the contents of the `source_code` and `target_code` columns. -/
structure CSVFile where
  cols : List String
  srcVals : List String
  tgtVals : List String

/-- Provenance entries produced by the mapping engine. -/
inductive MLog
  | errorLog (msg : String)
  | directMapping (mappedCount : Nat)
  | fuzzyMapping (mappedCount : Nat)
  | aiMappingAuto (autoMappedCount : Nat)
  | reviewFileGenerated (unmappedCodesCount : Nat)
  | mappingComplete (initialRows mappedCount unmappedCount : Nat)
deriving DecidableEq

/-- One AI suggestion: a GBD cause plus a confidence in the unit interval. -/
structure Suggestion where
  gbd_cause : String
  confidence : Rat
deriving DecidableEq

/-- One row of the human-review artifact `human_review_required.csv`. -/
structure ReviewRow where
  source_code : String
  suggestion_rank : Nat
  suggested_gbd_cause : String
  confidence_score : Rat
  human_mapping : String
deriving DecidableEq

/-- Lookup in a Python dict built by insertion from an association list:
later insertions of the same key overwrite earlier ones. -/
def dictLookup (pairs : List (String × String)) (k : String) : Option String :=
  (pairs.reverse.find? (fun p => p.1 = k)).map (fun p => p.2)

/-- Number of rows whose target column is still the unresolved marker
(`data[self.target_column].isna().sum()`). -/
def countUnresolved (data : List MRow) : Nat := data.countP (fun r => r.tgt.isNone)

/-- First-occurrence deduplication, as `pandas.Series.unique` performs. -/
def uniqueAux : List String → List String → List String
  | [], _ => []
  | x :: xs, seen =>
    if x ∈ seen then uniqueAux xs seen else x :: uniqueAux xs (x :: seen)

/-- `Series.unique()` on a list of strings. -/
def uniqueList (l : List String) : List String := uniqueAux l []

/-- The distinct non-missing source codes of the still-unresolved rows
(`data.loc[unmapped_mask, source_column]` deduplicated with NaN dropped). -/
def unresolvedCodes (data : List MRow) : List String :=
  uniqueList (data.filterMap (fun r => if r.tgt.isNone then r.src else none))

/-- The row update shared by all three sources:
`data.loc[unmapped_mask, target] = data.loc[unmapped_mask, source].map(dict)`.
Only rows with an unresolved target are touched; a row whose code is absent
from the dict (or whose code cell is NaN) keeps the unresolved marker. -/
def resolveWith (d : List (String × String)) (r : MRow) : MRow :=
  if r.tgt.isNone then { r with tgt := r.src.bind (dictLookup d) } else r

/-- Embeds `_apply_direct_mapping`, with the filesystem as the parameter
`fs`: no configured file or a missing file is a no-op (the missing file is
logged), a file without the required columns raises, and otherwise the
direct dictionary is applied to the unresolved rows and the count of newly
resolved rows is logged. -/
def applyDirect (fs : String → Option CSVFile) (source : MappingSource)
    (data : List MRow) : Except String (List MRow × List MLog) :=
  match source.file with
  | none => .ok (data, [])
  | some f =>
    match fs f with
    | none => .ok (data, [.errorLog ("Mapping file not found: " ++ f)])
    | some csv =>
      if "source_code" ∈ csv.cols ∧ "target_code" ∈ csv.cols then
        let pairs := csv.srcVals.zip csv.tgtVals
        let mapped := data.map (resolveWith pairs)
        .ok (mapped, [.directMapping (countUnresolved data - countUnresolved mapped)])
      else
        .error "Mapping file must contain source_code and target_code columns"

/-- The accumulator loop of `rapidfuzz.process.extractOne`: scan the
choices keeping the strictly best score, so the first-seen choice wins
exact ties. -/
def bestMatchAux (scorer : String → String → Rat) (q : String) :
    String × Rat → List String → String × Rat
  | cur, [] => cur
  | cur, c :: cs =>
    bestMatchAux scorer q (if cur.2 < scorer q c then (c, scorer q c) else cur) cs

/-- Embeds `process.extractOne(query, choices, scorer, score_cutoff)`:
the best-scoring choice, or `none` when there is no choice or the best
score falls below the cutoff. -/
def extractOne (scorer : String → String → Rat) (q : String)
    (choices : List String) (cutoff : Rat) : Option (String × Rat) :=
  match choices with
  | [] => none
  | c :: cs =>
    let best := bestMatchAux scorer q (c, scorer q c) cs
    if cutoff ≤ best.2 then some best else none

/-- The `mapping_dict` built by the fuzzy loop: one entry per distinct
unresolved code whose best candidate clears the cutoff. -/
def fuzzyDict (scorer : String → String → Rat) (codes targets : List String)
    (cutoff : Rat) : List (String × String) :=
  codes.filterMap (fun c => (extractOne scorer c targets cutoff).map (fun p => (c, p.1)))

/-- Embeds `_apply_fuzzy_mapping`: no configured file or a missing file is a
silent no-op, a file without the `target_code` column raises, and otherwise
each distinct unresolved code is matched against the candidate list at
cutoff `threshold * 100` and the accepted matches are broadcast to the
unresolved rows; the logged count is the size of the mapping dict. -/
def applyFuzzy (fs : String → Option CSVFile) (scorer : String → String → Rat)
    (source : MappingSource) (data : List MRow) :
    Except String (List MRow × List MLog) :=
  match source.file with
  | none => .ok (data, [])
  | some f =>
    match fs f with
    | none => .ok (data, [])
    | some csv =>
      if "target_code" ∈ csv.cols then
        let dict := fuzzyDict scorer (unresolvedCodes data) csv.tgtVals
          (source.threshold * 100)
        let mapped := data.map (resolveWith dict)
        .ok (mapped, [.fuzzyMapping dict.length])
      else
        .error "Mapping file must contain target_code column"

/-- The `high_confidence_mappings` dict of `_apply_ai_mapping`: one entry
per distinct unresolved code whose top suggestion reaches the threshold. -/
def aiDict (suggest : String → List Suggestion) (threshold : Rat)
    (codes : List String) : List (String × String) :=
  codes.filterMap (fun c =>
    match suggest c with
    | [] => none
    | s :: _ => if threshold ≤ s.confidence then some (c, s.gbd_cause) else none)

/-- Embeds `_apply_ai_mapping`, with the suggester as the parameter
`suggest` (the top-3 call of `AIAssistant.suggest_mappings`): nothing
happens when no row is unresolved or no code reaches the confidence
threshold; otherwise the high-confidence mappings are applied to the
unresolved rows and their count is logged. -/
def applyAI (suggest : String → List Suggestion) (source : MappingSource)
    (data : List MRow) : List MRow × List MLog :=
  if countUnresolved data = 0 then (data, [])
  else
    let dict := aiDict suggest source.threshold (unresolvedCodes data)
    if dict.isEmpty then (data, [])
    else
      let mapped := data.map (resolveWith dict)
      (mapped, [.aiMappingAuto dict.length])

/-- The external collaborators of one engine run: the filesystem, the
string-similarity scorer and the AI suggester. -/
structure EngineEnv where
  fs : String → Option CSVFile
  scorer : String → String → Rat
  suggest : String → List Suggestion

/-- One iteration of the source loop in `apply_mappings`: disabled sources
are skipped, and running an ai source instantiates the AI assistant (the
boolean tracks `self.ai_assistant is not None`). -/
def applySource (env : EngineEnv) (source : MappingSource) (data : List MRow)
    (aiActive : Bool) : Except String (List MRow × List MLog × Bool) :=
  if source.enabled = false then .ok (data, [], aiActive)
  else
    match source.type with
    | .direct =>
      match applyDirect env.fs source data with
      | .ok dl => .ok (dl.1, dl.2, aiActive)
      | .error e => .error e
    | .fuzzy =>
      match applyFuzzy env.fs env.scorer source data with
      | .ok dl => .ok (dl.1, dl.2, aiActive)
      | .error e => .error e
    | .ai =>
      let dl := applyAI env.suggest source data
      .ok (dl.1, dl.2, true)

/-- The source loop of `apply_mappings`, threading the table, the appended
provenance entries and the AI-assistant flag through the ordered sources. -/
def runSources (env : EngineEnv) :
    List MappingSource → List MRow → Bool →
    Except String (List MRow × List MLog × Bool)
  | [], data, aiActive => .ok (data, [], aiActive)
  | s :: rest, data, aiActive =>
    match applySource env s data aiActive with
    | .error e => .error e
    | .ok dla =>
      match runSources env rest dla.1 dla.2.2 with
      | .error e => .error e
      | .ok dla2 => .ok (dla2.1, dla.2.1 ++ dla2.2.1, dla2.2.2)

/-- Embeds `_generate_review_file` row construction: without an
instantiated AI assistant no rows are built at all; with one, each distinct
non-missing unresolved code contributes its ranked suggestions, or a single
rank-0 placeholder row when the suggester returns nothing. -/
def buildReviewRows (ai : Option (String → List Suggestion))
    (unmapped : List MRow) : List ReviewRow :=
  match ai with
  | none => []
  | some suggest =>
    (uniqueList (unmapped.filterMap (fun r => r.src))).flatMap (fun code =>
      match suggest code with
      | [] => [⟨code, 0, "", 0, ""⟩]
      | ss => ss.enum.map (fun p => ⟨code, p.1 + 1, p.2.gbd_cause, p.2.confidence, ""⟩))

/-- The observable outcome of `MappingEngine.apply_mappings`: the mapped
table, the provenance entries, and the persisted review artifact
(`none` when `human_review_required.csv` is not written). -/
structure MapResult where
  table : List MRow
  logs : List MLog
  reviewFile : Option (List ReviewRow)
deriving DecidableEq

/-- Number of rows that a single source application changed from the
unresolved marker to a concrete target value. -/
def newlyResolved (before after : List MRow) : Nat :=
  (before.zip after).countP (fun p => p.1.tgt.isNone && p.2.tgt.isSome)

/-- Embeds `MappingEngine.apply_mappings` from the point the target column
has been initialized to the unresolved marker: run the sources in order,
then build the review artifact for the still-unresolved rows (persisted
only when at least one review row was built), then log the summary. -/
def apply_mappings (env : EngineEnv) (sources : List MappingSource)
    (srcCells : List (Option String)) : Except String MapResult :=
  let init := srcCells.map (fun s => MRow.mk s none)
  match runSources env sources init false with
  | .error e => .error e
  | .ok tla =>
    let unmapped := tla.1.filter (fun r => r.tgt.isNone)
    let reviewRows :=
      if unmapped.length > 0 then
        buildReviewRows (if tla.2.2 then some env.suggest else none) unmapped
      else []
    let review := if reviewRows.isEmpty then none else some reviewRows
    let reviewLogs :=
      if reviewRows.isEmpty then []
      else [MLog.reviewFileGenerated (uniqueList (unmapped.filterMap (fun r => r.src))).length]
    .ok ⟨tla.1, tla.2.1 ++ reviewLogs ++
      [MLog.mappingComplete init.length (init.length - unmapped.length) unmapped.length],
      review⟩

/-! ## Concrete scenario data used by witnesses and counterexamples -/

/-- Filesystem of the end-to-end scenario: a single direct mapping file
covering three of the five ICD-10 codes. -/
def fsC2 : String → Option CSVFile := fun f =>
  if f = "mapping.csv" then
    some ⟨["source_code", "target_code"], ["A00", "B20", "I21"],
      ["Cholera", "HIV/AIDS", "Ischemic heart disease"]⟩
  else none

/-- Engine environment of the end-to-end scenario (the scorer and the
suggester are never consulted because no fuzzy or ai source is enabled). -/
def envC2 : EngineEnv := ⟨fsC2, fun _ _ => 0, fun _ => []⟩

/-- The single direct source of the end-to-end scenario. -/
def directC2 : MappingSource := ⟨.direct, true, some "mapping.csv", 1⟩

/-- The five input codes of the end-to-end scenario. -/
def dataC2 : List (Option String) :=
  [some "A00", some "B20", some "I21", some "J44", some "K92"]

/-- Filesystem holding a direct file and a fuzzy candidate file, used to
exercise the priority cascade. -/
def fsC1 : String → Option CSVFile := fun f =>
  if f = "mapping.csv" then
    some ⟨["source_code", "target_code"], ["A00"], ["Cholera"]⟩
  else if f = "causes.csv" then some ⟨["target_code"], [], ["A00X"]⟩
  else none

/-- Engine environment for the priority-cascade scenario. -/
def envC1 : EngineEnv := ⟨fsC1, fun _ _ => 100, fun _ => []⟩

/-- Direct source of the priority-cascade scenario. -/
def dirC1 : MappingSource := ⟨.direct, true, some "mapping.csv", 1⟩

/-- Fuzzy source of the priority-cascade scenario. -/
def fuzC1 : MappingSource := ⟨.fuzzy, true, some "causes.csv", 1⟩

/-- Filesystem with one fuzzy candidate file holding the single candidate
"good". -/
def fsF : String → Option CSVFile := fun f =>
  if f = "causes.csv" then some ⟨["target_code"], [], ["good"]⟩ else none

/-- Scorer giving the query "hit" a score of 100 and every other query a
score of 10. -/
def scorerF : String → String → Rat := fun q _ => if q = "hit" then 100 else 10

/-- Fuzzy source with threshold 1.0, hence cutoff 100. -/
def fuzF : MappingSource := ⟨.fuzzy, true, some "causes.csv", 1⟩

/-- Filesystem on which every path is missing. -/
def fsNone : String → Option CSVFile := fun _ => none

/-- Filesystem on which every path holds a CSV lacking the required
mapping columns. -/
def fsBadCols : String → Option CSVFile := fun _ => some ⟨["name"], [], []⟩

/-- A source configured with a mapping file path, used against the
degenerate filesystems above. -/
def srcC5 : MappingSource := ⟨.direct, true, some "map.csv", 1⟩

/-- Rule library with a single known rule that always raises. -/
def libC6 : String → Option (List Nat → Except String (List Nat)) := fun n =>
  if n = "boom" then some (fun _ => .error "bad") else none

/-- Filesystem with a fuzzy candidate file holding the single candidate
"T". -/
def fs8 : String → Option CSVFile := fun f =>
  if f = "c.csv" then some ⟨["target_code"], [], ["T"]⟩ else none

/-- Scorer giving every pair the perfect score 100. -/
def scorer8 : String → String → Rat := fun _ _ => 100

/-- Fuzzy source with threshold 1.0 over `fs8`. -/
def fuz8 : MappingSource := ⟨.fuzzy, true, some "c.csv", 1⟩

/-- Suggester returning one full-confidence suggestion for every code. -/
def suggest8 : String → List Suggestion := fun _ => [⟨"Cardiovascular diseases", 1⟩]

/-- An ai source with threshold 1.0. -/
def ai8 : MappingSource := ⟨.ai, true, none, 1⟩

/-! ## Helper lemmas about the shared row update -/

theorem resolveWith_resolved (d : List (String × String)) (r : MRow)
    (h : r.tgt.isSome) : resolveWith d r = r := by
  cases ht : r.tgt with
  | none => rw [ht] at h; simp at h
  | some v => simp [resolveWith, ht]

theorem resolveWith_src_none (d : List (String × String)) (r : MRow)
    (h : r.src = none) : (resolveWith d r).tgt = r.tgt := by
  cases ht : r.tgt <;> simp [resolveWith, ht, h]

theorem resolveWith_isNone (d : List (String × String)) (r : MRow)
    (h : (resolveWith d r).tgt.isNone = true) : r.tgt.isNone = true := by
  cases ht : r.tgt with
  | none => rfl
  | some v => rw [resolveWith_resolved d r (by simp [ht])] at h; simp [ht] at h

theorem map_resolveWith_get (d : List (String × String)) (data : List MRow)
    (i : Nat) (r : MRow) (hget : data[i]? = some r) (hres : r.tgt.isSome) :
    (data.map (resolveWith d))[i]? = some r := by
  simp [List.getElem?_map, hget, resolveWith_resolved d r hres]

/-! ## Branch analyses of the three mapping sources -/

theorem applyDirect_cases (fs : String → Option CSVFile) (source : MappingSource)
    (data t2 : List MRow) (logs : List MLog)
    (h : applyDirect fs source data = .ok (t2, logs)) :
    (t2 = data ∧
      ((source.file = none ∧ logs = []) ∨
        ∃ f, source.file = some f ∧ fs f = none ∧
          logs = [.errorLog ("Mapping file not found: " ++ f)]))
    ∨ ∃ f csv, source.file = some f ∧ fs f = some csv ∧
        ("source_code" ∈ csv.cols ∧ "target_code" ∈ csv.cols) ∧
        t2 = data.map (resolveWith (csv.srcVals.zip csv.tgtVals)) ∧
        logs = [.directMapping (countUnresolved data -
          countUnresolved (data.map (resolveWith (csv.srcVals.zip csv.tgtVals))))] := by
  unfold applyDirect at h
  split at h
  · next hfile =>
    left
    simp only [Except.ok.injEq, Prod.mk.injEq] at h
    exact ⟨h.1.symm, Or.inl ⟨hfile, h.2.symm⟩⟩
  · next f hfile =>
    split at h
    · next hfs =>
      left
      simp only [Except.ok.injEq, Prod.mk.injEq] at h
      exact ⟨h.1.symm, Or.inr ⟨f, hfile, hfs, h.2.symm⟩⟩
    · next csv hfs =>
      split at h
      · next hcols =>
        right
        simp only [Except.ok.injEq, Prod.mk.injEq] at h
        exact ⟨f, csv, hfile, hfs, hcols, h.1.symm, h.2.symm⟩
      · exact absurd h (by simp)

theorem applyFuzzy_cases (fs : String → Option CSVFile)
    (scorer : String → String → Rat) (source : MappingSource)
    (data t2 : List MRow) (logs : List MLog)
    (h : applyFuzzy fs scorer source data = .ok (t2, logs)) :
    (t2 = data ∧ logs = [] ∧
      (source.file = none ∨ ∃ f, source.file = some f ∧ fs f = none))
    ∨ ∃ f csv, source.file = some f ∧ fs f = some csv ∧ "target_code" ∈ csv.cols ∧
        t2 = data.map (resolveWith (fuzzyDict scorer (unresolvedCodes data)
          csv.tgtVals (source.threshold * 100))) ∧
        logs = [.fuzzyMapping (fuzzyDict scorer (unresolvedCodes data)
          csv.tgtVals (source.threshold * 100)).length] := by
  unfold applyFuzzy at h
  split at h
  · next hfile =>
    left
    simp only [Except.ok.injEq, Prod.mk.injEq] at h
    exact ⟨h.1.symm, h.2.symm, Or.inl hfile⟩
  · next f hfile =>
    split at h
    · next hfs =>
      left
      simp only [Except.ok.injEq, Prod.mk.injEq] at h
      exact ⟨h.1.symm, h.2.symm, Or.inr ⟨f, hfile, hfs⟩⟩
    · next csv hfs =>
      split at h
      · next hcols =>
        right
        simp only [Except.ok.injEq, Prod.mk.injEq] at h
        exact ⟨f, csv, hfile, hfs, hcols, h.1.symm, h.2.symm⟩
      · exact absurd h (by simp)

theorem applyAI_cases (suggest : String → List Suggestion) (source : MappingSource)
    (data : List MRow) :
    applyAI suggest source data = (data, [])
    ∨ (aiDict suggest source.threshold (unresolvedCodes data) ≠ [] ∧
       applyAI suggest source data =
         (data.map (resolveWith (aiDict suggest source.threshold (unresolvedCodes data))),
          [.aiMappingAuto (aiDict suggest source.threshold (unresolvedCodes data)).length])) := by
  unfold applyAI
  split
  · exact Or.inl rfl
  · by_cases hemp : (aiDict suggest source.threshold (unresolvedCodes data)).isEmpty = true
    · exact Or.inl (by simp [hemp])
    · exact Or.inr ⟨by simpa [List.isEmpty_iff] using hemp, by simp [hemp]⟩

/-! ## The source loop preserves already-resolved rows -/

theorem applySource_preserves (env : EngineEnv) (s : MappingSource)
    (data : List MRow) (a : Bool) (out : List MRow × List MLog × Bool)
    (h : applySource env s data a = .ok out) (i : Nat) (r : MRow)
    (hget : data[i]? = some r) (hres : r.tgt.isSome) :
    out.1[i]? = some r := by
  unfold applySource at h
  split at h
  · simp only [Except.ok.injEq] at h
    rw [← h]
    exact hget
  · split at h
    · split at h
      · next dl heq =>
        simp only [Except.ok.injEq] at h
        rw [← h]
        rcases applyDirect_cases env.fs s data dl.1 dl.2 (by rw [heq]) with
          ⟨ht, _⟩ | ⟨f, csv, _, _, _, ht, _⟩
        · rw [ht]; exact hget
        · rw [ht]; exact map_resolveWith_get _ data i r hget hres
      · exact absurd h (by simp)
    · split at h
      · next dl heq =>
        simp only [Except.ok.injEq] at h
        rw [← h]
        rcases applyFuzzy_cases env.fs env.scorer s data dl.1 dl.2 (by rw [heq]) with
          ⟨ht, _, _⟩ | ⟨f, csv, _, _, _, ht, _⟩
        · rw [ht]; exact hget
        · rw [ht]; exact map_resolveWith_get _ data i r hget hres
      · exact absurd h (by simp)
    · simp only [Except.ok.injEq] at h
      rw [← h]
      rcases applyAI_cases env.suggest s data with hai | ⟨_, hai⟩
      · rw [hai]; exact hget
      · rw [hai]; exact map_resolveWith_get _ data i r hget hres

theorem runSources_preserves (env : EngineEnv) :
    ∀ (sources : List MappingSource) (data : List MRow) (a : Bool)
      (out : List MRow × List MLog × Bool),
      runSources env sources data a = .ok out →
      ∀ (i : Nat) (r : MRow), data[i]? = some r → r.tgt.isSome →
      out.1[i]? = some r := by
  intro sources
  induction sources with
  | nil =>
    intro data a out h i r hget hres
    unfold runSources at h
    simp only [Except.ok.injEq] at h
    rw [← h]
    exact hget
  | cons s rest ih =>
    intro data a out h i r hget hres
    unfold runSources at h
    split at h
    · exact absurd h (by simp)
    · next dla heq =>
      split at h
      · exact absurd h (by simp)
      · next dla2 heq2 =>
        simp only [Except.ok.injEq] at h
        rw [← h]
        have h1 := applySource_preserves env s data a dla heq i r hget hres
        exact ih dla.1 dla.2.2 dla2 heq2 i r h1 hres

theorem runSources_append (env : EngineEnv) :
    ∀ (xs ys : List MappingSource) (data : List MRow) (a : Bool),
      runSources env (xs ++ ys) data a =
        match runSources env xs data a with
        | .error e => .error e
        | .ok out =>
          match runSources env ys out.1 out.2.2 with
          | .error e => .error e
          | .ok out2 => .ok (out2.1, out.2.1 ++ out2.2.1, out2.2.2) := by
  intro xs
  induction xs with
  | nil =>
    intro ys data a
    simp only [List.nil_append]
    cases hr : runSources env ys data a with
    | error e => simp [runSources, hr]
    | ok out2 => simp [runSources, hr]
  | cons s xs ih =>
    intro ys data a
    rw [List.cons_append]
    cases ha : applySource env s data a with
    | error e =>
      have hL : runSources env (s :: (xs ++ ys)) data a = .error e := by
        conv_lhs => unfold runSources
        rw [ha]
      have hR : runSources env (s :: xs) data a = .error e := by
        conv_lhs => unfold runSources
        rw [ha]
      rw [hL, hR]
    | ok dla =>
      have hL : runSources env (s :: (xs ++ ys)) data a =
          match runSources env (xs ++ ys) dla.1 dla.2.2 with
          | .error e => .error e
          | .ok dla2 => .ok (dla2.1, dla.2.1 ++ dla2.2.1, dla2.2.2) := by
        conv_lhs => unfold runSources
        rw [ha]
      have hR : runSources env (s :: xs) data a =
          match runSources env xs dla.1 dla.2.2 with
          | .error e => .error e
          | .ok dla2 => .ok (dla2.1, dla.2.1 ++ dla2.2.1, dla2.2.2) := by
        conv_lhs => unfold runSources
        rw [ha]
      rw [hL, hR, ih ys dla.1 dla.2.2]
      cases hx : runSources env xs dla.1 dla.2.2 with
      | error e => simp
      | ok outx =>
        simp only []
        cases hy : runSources env ys outx.1 outx.2.2 with
        | error e => simp
        | ok outy => simp [List.append_assoc]

theorem applySource_ai_flag (env : EngineEnv) (s : MappingSource)
    (data : List MRow) (a : Bool) (out : List MRow × List MLog × Bool)
    (h : applySource env s data a = .ok out) :
    out.2.2 = (a || (s.enabled && decide (s.type = SourceType.ai))) := by
  unfold applySource at h
  split at h
  · next hen =>
    simp only [Except.ok.injEq] at h
    rw [← h]
    simp [hen]
  · next hen =>
    have hen' : s.enabled = true := by
      cases he : s.enabled
      · exact absurd he hen
      · rfl
    split at h
    · next hty =>
      split at h
      · simp only [Except.ok.injEq] at h
        rw [← h]
        simp [hen', hty]
      · exact absurd h (by simp)
    · next hty =>
      split at h
      · simp only [Except.ok.injEq] at h
        rw [← h]
        simp [hen', hty]
      · exact absurd h (by simp)
    · next hty =>
      simp only [Except.ok.injEq] at h
      rw [← h]
      simp [hen', hty]

theorem runSources_ai_flag (env : EngineEnv) :
    ∀ (sources : List MappingSource) (data : List MRow) (a : Bool)
      (out : List MRow × List MLog × Bool),
      runSources env sources data a = .ok out →
      out.2.2 = (a || sources.any (fun s => s.enabled && decide (s.type = SourceType.ai))) := by
  intro sources
  induction sources with
  | nil =>
    intro data a out h
    unfold runSources at h
    simp only [Except.ok.injEq] at h
    rw [← h]
    simp
  | cons s rest ih =>
    intro data a out h
    unfold runSources at h
    split at h
    · exact absurd h (by simp)
    · next dla heq =>
      split at h
      · exact absurd h (by simp)
      · next dla2 heq2 =>
        simp only [Except.ok.injEq] at h
        rw [← h]
        have h1 := applySource_ai_flag env s data a dla heq
        have h2 := ih dla.1 dla.2.2 dla2 heq2
        simp only [List.any_cons, h2, h1, Bool.or_assoc]

/-! ## Facts about extractOne and the mapping dictionaries -/

theorem bestMatchAux_shape (scorer : String → String → Rat) (q : String) :
    ∀ (l : List String) (cur : String × Rat),
      bestMatchAux scorer q cur l = cur ∨
      ∃ c ∈ l, bestMatchAux scorer q cur l = (c, scorer q c) := by
  intro l
  induction l with
  | nil => intro cur; exact Or.inl rfl
  | cons c cs ih =>
    intro cur
    unfold bestMatchAux
    rcases ih (if cur.2 < scorer q c then (c, scorer q c) else cur) with h | ⟨c2, hc2, h⟩
    · rw [h]
      split
      · exact Or.inr ⟨c, by simp, rfl⟩
      · exact Or.inl rfl
    · exact Or.inr ⟨c2, by simp [hc2], h⟩

theorem extractOne_some (scorer : String → String → Rat) (q : String)
    (choices : List String) (cutoff : Rat) (c : String) (s : Rat)
    (h : extractOne scorer q choices cutoff = some (c, s)) :
    c ∈ choices ∧ s = scorer q c ∧ cutoff ≤ s := by
  unfold extractOne at h
  cases choices with
  | nil => exact absurd h (by simp)
  | cons c0 cs =>
    simp only [] at h
    split at h
    · next hle =>
      injection h with h
      rcases bestMatchAux_shape scorer q cs (c0, scorer q c0) with hb | ⟨c2, hc2, hb⟩
      · rw [hb] at h hle
        have h1 : c0 = c := congrArg Prod.fst h
        have h2 : scorer q c0 = s := congrArg Prod.snd h
        subst h1
        exact ⟨by simp, h2.symm, by rw [← h2]; exact hle⟩
      · rw [hb] at h hle
        have h1 : c2 = c := congrArg Prod.fst h
        have h2 : scorer q c2 = s := congrArg Prod.snd h
        subst h1
        exact ⟨by simp [hc2], h2.symm, by rw [← h2]; exact hle⟩
    · exact absurd h (by simp)

theorem extractOne_none_of_lt (scorer : String → String → Rat) (q : String)
    (choices : List String) (cutoff : Rat)
    (hall : ∀ c ∈ choices, scorer q c < cutoff) :
    extractOne scorer q choices cutoff = none := by
  unfold extractOne
  cases choices with
  | nil => rfl
  | cons c0 cs =>
    simp only []
    rcases bestMatchAux_shape scorer q cs (c0, scorer q c0) with hb | ⟨c2, hc2, hb⟩
    · rw [hb, if_neg (not_le.mpr (hall c0 (by simp)))]
    · rw [hb, if_neg (not_le.mpr (hall c2 (by simp [hc2])))]

theorem dictLookup_mem (d : List (String × String)) (k v : String)
    (h : dictLookup d k = some v) : (k, v) ∈ d := by
  unfold dictLookup at h
  cases hf : d.reverse.find? (fun p => p.1 = k) with
  | none => rw [hf] at h; exact absurd h (by simp)
  | some p =>
    rw [hf] at h
    simp only [Option.map_some'] at h
    injection h with h
    have hm := List.mem_of_find?_eq_some hf
    have hp := List.find?_some hf
    rw [List.mem_reverse] at hm
    have hpk : p.1 = k := by simpa using hp
    have : p = (k, v) := by
      cases p
      simp only [Prod.mk.injEq]
      exact ⟨hpk, h⟩
    rwa [this] at hm

theorem fuzzyDict_mem (scorer : String → String → Rat) (codes targets : List String)
    (cutoff : Rat) (k v : String) (h : (k, v) ∈ fuzzyDict scorer codes targets cutoff) :
    ∃ s, extractOne scorer k targets cutoff = some (v, s) := by
  unfold fuzzyDict at h
  rw [List.mem_filterMap] at h
  obtain ⟨c, _, hc⟩ := h
  cases he : extractOne scorer c targets cutoff with
  | none => rw [he] at hc; exact absurd hc (by simp)
  | some p =>
    obtain ⟨p1, p2⟩ := p
    rw [he] at hc
    simp only [Option.map_some'] at hc
    injection hc with hc
    have h1 : c = k := congrArg Prod.fst hc
    have h2 : p1 = v := congrArg Prod.snd hc
    subst h1
    subst h2
    exact ⟨p2, he⟩

theorem aiDict_mem (suggest : String → List Suggestion) (threshold : Rat)
    (codes : List String) (k v : String) (h : (k, v) ∈ aiDict suggest threshold codes) :
    ∃ s ss, suggest k = s :: ss ∧ threshold ≤ s.confidence ∧ v = s.gbd_cause := by
  unfold aiDict at h
  rw [List.mem_filterMap] at h
  obtain ⟨c, _, hc⟩ := h
  cases hs : suggest c with
  | nil => rw [hs] at hc; exact absurd hc (by simp)
  | cons s ss =>
    rw [hs] at hc
    simp only [] at hc
    split at hc
    · next hconf =>
      injection hc with hc
      obtain ⟨h1, h2⟩ := Prod.mk.injEq .. ▸ hc
      subst h1
      exact ⟨s, ss, hs, hconf, h2.symm⟩
    · exact absurd hc (by simp)

/-! ## Deduplication and counting lemmas -/

theorem mem_uniqueAux : ∀ (l seen : List String) (a : String),
    a ∈ uniqueAux l seen → a ∈ l := by
  intro l
  induction l with
  | nil => intro seen a h; exact absurd h (by simp [uniqueAux])
  | cons x xs ih =>
    intro seen a h
    unfold uniqueAux at h
    split at h
    · exact List.mem_cons_of_mem _ (ih _ _ h)
    · rcases List.mem_cons.mp h with h | h
      · simp [h]
      · exact List.mem_cons_of_mem _ (ih _ _ h)

theorem mem_uniqueList (l : List String) (a : String) (h : a ∈ uniqueList l) :
    a ∈ l :=
  mem_uniqueAux l [] a h

theorem length_filterMap_eq_countP {α β : Type} (f : α → Option β) (l : List α) :
    (l.filterMap f).length = l.countP (fun a => (f a).isSome) := by
  induction l with
  | nil => rfl
  | cons a l ih =>
    cases hf : f a <;>
      simp [List.filterMap_cons, hf, List.countP_cons, ih]

theorem countUnresolved_map_le (d : List (String × String)) (l : List MRow) :
    countUnresolved (l.map (resolveWith d)) ≤ countUnresolved l := by
  induction l with
  | nil => simp [countUnresolved]
  | cons r l ih =>
    have hrow := resolveWith_isNone d r
    simp only [countUnresolved, List.map_cons, List.countP_cons, List.countP_map,
      Function.comp_apply] at ih ⊢
    cases hg : (resolveWith d r).tgt.isNone <;> cases hr : r.tgt.isNone <;>
      first
        | omega
        | (simp_all +decide <;> omega)

theorem newlyResolved_map (d : List (String × String)) (l : List MRow) :
    countUnresolved l - countUnresolved (l.map (resolveWith d)) =
      newlyResolved l (l.map (resolveWith d)) := by
  induction l with
  | nil => rfl
  | cons r l ih =>
    have hle := countUnresolved_map_le d l
    simp only [countUnresolved, List.countP_map, Function.comp_apply] at hle
    simp only [countUnresolved, newlyResolved, List.map_cons, List.zip_cons_cons,
      List.countP_cons, List.countP_map, Function.comp_apply] at ih ⊢
    cases hrt : r.tgt with
    | some v =>
      have hres : resolveWith d r = r := resolveWith_resolved d r (by simp [hrt])
      rw [hres]
      simp only [hrt]
      simp +decide
      omega
    | none =>
      cases hgt : (resolveWith d r).tgt <;> simp +decide [hgt] <;> omega

theorem runSources_append_ok (env : EngineEnv) (xs ys : List MappingSource)
    (data : List MRow) (a : Bool) (t1 : List MRow) (l1 : List MLog) (a1 : Bool)
    (h : runSources env xs data a = .ok (t1, l1, a1)) :
    runSources env (xs ++ ys) data a =
      match runSources env ys t1 a1 with
      | .error e => .error e
      | .ok out2 => .ok (out2.1, l1 ++ out2.2.1, out2.2.2) := by
  rw [runSources_append env xs ys data a, h]

/-! ## Claim theorems -/

/-- C1: every mapping source writes the target column only on rows that are
still unresolved when it runs, so a row resolved by some prefix of the
source cascade keeps that value (source and target cell alike) through all
later sources; in particular a row matched by a direct source and by a
later fuzzy source ends with the value of the direct source. -/
theorem C1_resolved_rows_persist (env : EngineEnv) (pre post : List MappingSource)
    (data : List MRow) (t1 : List MRow) (l1 : List MLog) (a1 : Bool)
    (t2 : List MRow) (l2 : List MLog) (a2 : Bool)
    (h1 : runSources env pre data false = .ok (t1, l1, a1))
    (h2 : runSources env (pre ++ post) data false = .ok (t2, l2, a2))
    (i : Nat) (r : MRow) (v : String)
    (hget : t1[i]? = some r) (hres : r.tgt = some v) :
    t2[i]? = some r := by
  rw [runSources_append_ok env pre post data false t1 l1 a1 h1] at h2
  cases hp : runSources env post t1 a1 with
  | error e =>
    rw [hp] at h2
    simp at h2
  | ok outp =>
    rw [hp] at h2
    simp only [Except.ok.injEq, Prod.mk.injEq] at h2
    have hpres := runSources_preserves env post t1 a1 outp hp i r hget
      (by rw [hres]; rfl)
    rw [← h2.1]
    exact hpres

/-- Witness for C1 at a concrete run: the direct source resolves A00 to
Cholera, and the appended fuzzy source leaves the value unchanged. -/
theorem C1_resolved_rows_persist_witness :
    (runSources envC1 ([dirC1] ++ [fuzC1]) [⟨some "A00", none⟩] false).toOption.map
      (fun out => out.1[0]?) = some (some ⟨some "A00", some "Cholera"⟩) := by
  have h1 : runSources envC1 [dirC1] [⟨some "A00", none⟩] false
      = .ok ([⟨some "A00", some "Cholera"⟩], [.directMapping 1], false) := rfl
  have h2 : runSources envC1 ([dirC1] ++ [fuzC1]) [⟨some "A00", none⟩] false
      = .ok ([⟨some "A00", some "Cholera"⟩], [.directMapping 1, .fuzzyMapping 0], false) := rfl
  have h3 := C1_resolved_rows_persist envC1 [dirC1] [fuzC1] [⟨some "A00", none⟩]
    _ _ _ _ _ _ h1 h2 0 ⟨some "A00", some "Cholera"⟩ "Cholera" rfl rfl
  rw [h2]
  show some (([⟨some "A00", some "Cholera"⟩] : List MRow)[0]?)
    = some (some ⟨some "A00", some "Cholera"⟩)
  rw [h3]

/-- C3 counterexample: with the default bounds the age 150 satisfies
`age > max_age` on neither side (the mask is strict), so it is kept, not
made missing; the claimed output list is wrong. -/
theorem C3_counterexample :
    standardize_ages 0 150 false [.num 25, .num 150, .num (-5), .num 200, .num 45]
      ≠ [some 25, none, none, none, some 45] := by decide

/-- C3 amended: with the default inclusive bounds, age 150 is valid; the
non-removing run yields `[25, 150, missing, missing, 45]` and the removing
run drops exactly the rows holding -5 and 200, the two behaviours being
selected by the mutually exclusive `remove_invalid` flag. -/
theorem C3_standardize_ages_amended :
    standardize_ages 0 150 false [.num 25, .num 150, .num (-5), .num 200, .num 45]
      = [some 25, some 150, none, none, some 45]
    ∧ standardize_ages 0 150 true [.num 25, .num 150, .num (-5), .num 200, .num 45]
      = [some 25, some 150, some 45] := by decide

/-- C5 counterexample: a fuzzy source whose mapping file is missing is a
no-op but, unlike the direct source, logs nothing at all: the provenance
list of the call is empty, refuting the claim that every source logs its
missing file. -/
theorem C5_counterexample :
    applyFuzzy fsNone scorerF fuzF [⟨some "X", none⟩] = .ok ([⟨some "X", none⟩], []) := rfl

/-- C5 amended: a missing mapping file makes the direct source no-op with
an error log entry and the fuzzy source no-op silently, while a file that
exists but lacks the required columns makes either source raise. -/
theorem C5_missing_file_amended (fs : String → Option CSVFile)
    (scorer : String → String → Rat) (source : MappingSource) (f : String)
    (data : List MRow) (hf : source.file = some f) :
    (fs f = none →
      applyDirect fs source data =
        .ok (data, [.errorLog ("Mapping file not found: " ++ f)])
      ∧ applyFuzzy fs scorer source data = .ok (data, []))
    ∧ (∀ csv, fs f = some csv →
        ¬("source_code" ∈ csv.cols ∧ "target_code" ∈ csv.cols) →
        applyDirect fs source data =
          .error "Mapping file must contain source_code and target_code columns")
    ∧ (∀ csv, fs f = some csv → "target_code" ∉ csv.cols →
        applyFuzzy fs scorer source data =
          .error "Mapping file must contain target_code column") := by
  refine ⟨?_, ?_, ?_⟩
  · intro hfs
    constructor
    · simp [applyDirect, hf, hfs]
    · simp [applyFuzzy, hf, hfs]
  · intro csv hfs hcols
    simp [applyDirect, hf, hfs, hcols]
  · intro csv hfs hcol
    simp [applyFuzzy, hf, hfs, hcol]

/-- Witness for C5 amended at concrete inputs: the missing-file and the
missing-columns behaviours of both source kinds. -/
theorem C5_missing_file_amended_witness :
    (applyDirect fsNone srcC5 [⟨some "X", none⟩]
        = .ok ([⟨some "X", none⟩], [.errorLog ("Mapping file not found: " ++ "map.csv")])
      ∧ applyFuzzy fsNone scorerF srcC5 [⟨some "X", none⟩] = .ok ([⟨some "X", none⟩], []))
    ∧ applyDirect fsBadCols srcC5 [⟨some "X", none⟩]
        = .error "Mapping file must contain source_code and target_code columns"
    ∧ applyFuzzy fsBadCols scorerF srcC5 [⟨some "X", none⟩]
        = .error "Mapping file must contain target_code column" :=
  ⟨(C5_missing_file_amended fsNone scorerF srcC5 "map.csv" _ rfl).1 rfl,
    (C5_missing_file_amended fsBadCols scorerF srcC5 "map.csv" _ rfl).2.1
      ⟨["name"], [], []⟩ rfl (by decide),
    (C5_missing_file_amended fsBadCols scorerF srcC5 "map.csv" _ rfl).2.2
      ⟨["name"], [], []⟩ rfl (by decide)⟩

/-- C6: in the cleaning stage an enabled rule whose name is unknown is
skipped with a `rule_skipped` log entry and the remaining rules still run,
while an enabled known rule that raises logs `rule_error` with the message
and re-raises, so the run ends with exactly that log entry and no later
rule is applied. -/
theorem C6_rule_skip_and_error {α : Type}
    (lib : String → Option (List α → Except String (List α)))
    (r : CleaningRule) (rest : List CleaningRule) (t : List α)
    (h : r.enabled = true) :
    (lib r.name = none →
      apply_rules lib (r :: rest) t =
        ((apply_rules lib rest t).1,
          .ruleSkipped r.name :: (apply_rules lib rest t).2))
    ∧ (∀ f e, lib r.name = some f → f t = .error e →
      apply_rules lib (r :: rest) t = (.error e, [.ruleError r.name e])) := by
  constructor
  · intro hn
    have hrr : runRules lib (r :: rest) t =
        ((runRules lib rest t).1, .ruleSkipped r.name :: (runRules lib rest t).2) := by
      conv_lhs => unfold runRules
      rw [if_neg (by simp [h])]
      simp only [hn]
    unfold apply_rules
    rw [hrr]
    rcases hres : runRules lib rest t with ⟨res1, logs⟩
    cases res1 with
    | ok t1 => simp [hres]
    | error e => simp [hres]
  · intro f e hf hfe
    have hrr : runRules lib (r :: rest) t = (.error e, [.ruleError r.name e]) := by
      conv_lhs => unfold runRules
      rw [if_neg (by simp [h])]
      simp only [hf, hfe]
    unfold apply_rules
    rw [hrr]

/-- Witness for C6 at concrete runs of the rule loop with the library
`libC6`: an unknown rule is skipped and logged, a raising rule aborts with
only its error entry logged. -/
theorem C6_rule_skip_and_error_witness :
    apply_rules libC6 [⟨"mystery", true⟩] ([7] : List Nat)
      = (.ok [7], [.ruleSkipped "mystery", .cleaningComplete 1 1])
    ∧ apply_rules libC6 [⟨"boom", true⟩, ⟨"other", true⟩] ([7] : List Nat)
      = (.error "bad", [.ruleError "boom" "bad"]) := by
  constructor
  · have h := (C6_rule_skip_and_error libC6 ⟨"mystery", true⟩ [] [7] rfl).1 rfl
    rw [h]
    rfl
  · exact (C6_rule_skip_and_error libC6 ⟨"boom", true⟩ [⟨"other", true⟩] [7] rfl).2
      (fun _ => .error "bad") "bad" rfl rfl

/-- C9: a zero-row table short-circuits `_calculate_quality_score` to the
score 0.0 before the scoring formula runs, whatever checks were
configured. -/
theorem C9_empty_table_score_zero
    (lib : String → Option (QTable → Except String (List Issue)))
    (checks : List QualityCheck) (data : QTable) (h : data.cells = []) :
    (run_checks lib data checks).qualityScore = 0 := by
  simp [run_checks, calculateQualityScore, h]

/-- Witness for C9: an empty three-column table with a configured check
still scores 0. -/
theorem C9_empty_table_score_zero_witness :
    (run_checks (fun _ => none) ⟨3, []⟩ [⟨"check_age_range", true⟩]).qualityScore = 0 :=
  C9_empty_table_score_zero (fun _ => none) [⟨"check_age_range", true⟩] ⟨3, []⟩ rfl

/-- C4: a row resolved by the fuzzy source got a candidate from the
configured candidate file whose similarity score reaches
`threshold * 100`, and a row all of whose candidate scores fall below the
cutoff stays unresolved. -/
theorem C4_fuzzy_threshold (fs : String → Option CSVFile)
    (scorer : String → String → Rat) (source : MappingSource)
    (data t2 : List MRow) (logs : List MLog)
    (h : applyFuzzy fs scorer source data = .ok (t2, logs)) :
    (∀ (i : Nat) (r r2 : MRow) (v : String),
      data[i]? = some r → t2[i]? = some r2 → r.tgt = none → r2.tgt = some v →
      ∃ f csv code, source.file = some f ∧ fs f = some csv ∧ r.src = some code ∧
        v ∈ csv.tgtVals ∧ source.threshold * 100 ≤ scorer code v)
    ∧ (∀ (i : Nat) (r r2 : MRow) (code : String),
      data[i]? = some r → t2[i]? = some r2 → r.tgt = none → r.src = some code →
      (∀ f csv, source.file = some f → fs f = some csv →
        ∀ c ∈ csv.tgtVals, scorer code c < source.threshold * 100) →
      r2.tgt = none) := by
  rcases applyFuzzy_cases fs scorer source data t2 logs h with
    ⟨ht2, hlogs, hbr⟩ | ⟨f, csv, hf, hfs, hcol, ht2, hlogs⟩
  · constructor
    · intro i r r2 v hget hget2 hrt hr2
      rw [ht2, hget] at hget2
      injection hget2 with hg
      rw [← hg, hrt] at hr2
      exact absurd hr2 (by simp)
    · intro i r r2 code hget hget2 hrt hsrc hall
      rw [ht2, hget] at hget2
      injection hget2 with hg
      rw [← hg]
      exact hrt
  · constructor
    · intro i r r2 v hget hget2 hrt hr2
      rw [ht2, List.getElem?_map, hget] at hget2
      simp only [Option.map_some'] at hget2
      injection hget2 with hg
      rw [← hg] at hr2
      simp only [resolveWith, hrt, Option.isNone_none, if_true] at hr2
      cases hs : r.src with
      | none => rw [hs] at hr2; exact absurd hr2 (by simp)
      | some code =>
        rw [hs] at hr2
        simp only [Option.some_bind] at hr2
        have hmem := dictLookup_mem _ _ _ hr2
        obtain ⟨s, he⟩ := fuzzyDict_mem scorer _ _ _ _ _ hmem
        obtain ⟨hv, hsc, hcut⟩ := extractOne_some scorer code csv.tgtVals _ v s he
        rw [hsc] at hcut
        exact ⟨f, csv, code, hf, hfs, rfl, hv, hcut⟩
    · intro i r r2 code hget hget2 hrt hsrc hall
      have hall2 := hall f csv hf hfs
      rw [ht2, List.getElem?_map, hget] at hget2
      simp only [Option.map_some'] at hget2
      injection hget2 with hg
      rw [← hg]
      simp only [resolveWith, hrt, Option.isNone_none, if_true, hsrc, Option.some_bind]
      cases hl : dictLookup
          (fuzzyDict scorer (unresolvedCodes data) csv.tgtVals (source.threshold * 100))
          code with
      | none => rfl
      | some w =>
        exfalso
        have hmem := dictLookup_mem _ _ _ hl
        obtain ⟨s, he⟩ := fuzzyDict_mem scorer _ _ _ _ _ hmem
        rw [extractOne_none_of_lt scorer code csv.tgtVals _ hall2] at he
        exact absurd he (by simp)

/-- C10: a row whose source-code cell is missing is skipped by the fuzzy
and the ai source (its target cell is untouched, in particular it is never
resolved), and every row of the review artifact carries the concrete
source code of some unresolved row, so a missing code never appears
there. -/
theorem C10_missing_source_codes :
    (∀ (fs : String → Option CSVFile) (scorer : String → String → Rat)
       (source : MappingSource) (data t2 : List MRow) (logs : List MLog)
       (i : Nat) (r : MRow),
       applyFuzzy fs scorer source data = .ok (t2, logs) →
       data[i]? = some r → r.src = none →
       ∃ r2, t2[i]? = some r2 ∧ r2.tgt = r.tgt)
    ∧ (∀ (suggest : String → List Suggestion) (source : MappingSource)
       (data : List MRow) (i : Nat) (r : MRow),
       data[i]? = some r → r.src = none →
       ∃ r2, (applyAI suggest source data).1[i]? = some r2 ∧ r2.tgt = r.tgt)
    ∧ (∀ (ai : Option (String → List Suggestion)) (unmapped : List MRow)
       (rr : ReviewRow), rr ∈ buildReviewRows ai unmapped →
       ∃ row ∈ unmapped, row.src = some rr.source_code) := by
  refine ⟨?_, ?_, ?_⟩
  · intro fs scorer source data t2 logs i r h hget hsrc
    rcases applyFuzzy_cases fs scorer source data t2 logs h with
      ⟨ht2, _, _⟩ | ⟨f, csv, _, _, _, ht2, _⟩
    · exact ⟨r, by rw [ht2]; exact hget, rfl⟩
    · refine ⟨resolveWith (fuzzyDict scorer (unresolvedCodes data) csv.tgtVals
          (source.threshold * 100)) r, ?_, resolveWith_src_none _ r hsrc⟩
      rw [ht2, List.getElem?_map, hget]
      rfl
  · intro suggest source data i r hget hsrc
    rcases applyAI_cases suggest source data with hai | ⟨_, hai⟩
    · exact ⟨r, by rw [hai]; exact hget, rfl⟩
    · refine ⟨resolveWith (aiDict suggest source.threshold (unresolvedCodes data)) r,
        ?_, resolveWith_src_none _ r hsrc⟩
      rw [hai]
      simp only [List.getElem?_map, hget]
      rfl
  · intro ai unmapped rr h
    cases ai with
    | none => exact absurd h (by simp [buildReviewRows])
    | some suggest =>
      unfold buildReviewRows at h
      rw [List.mem_flatMap] at h
      obtain ⟨code, hcode, hin⟩ := h
      have hsc : rr.source_code = code := by
        cases hs : suggest code with
        | nil =>
          rw [hs] at hin
          simp only [List.mem_singleton] at hin
          rw [hin]
        | cons s ss =>
          rw [hs] at hin
          obtain ⟨p, _, hrr⟩ := List.mem_map.mp hin
          rw [← hrr]
      have hmem := mem_uniqueList _ _ hcode
      rw [List.mem_filterMap] at hmem
      obtain ⟨row, hrow, hsrc⟩ := hmem
      exact ⟨row, hrow, by rw [hsc]; exact hsrc⟩

/-- Witness for C4 at a concrete fuzzy run: the query "hit" scores 100 and
is resolved to the candidate "good" at cutoff 100, the query "miss" scores
10 everywhere and stays unresolved. -/
theorem C4_fuzzy_threshold_witness :
    (∃ f csv code, fuzF.file = some f ∧ fsF f = some csv ∧
      (⟨some "hit", none⟩ : MRow).src = some code ∧
      "good" ∈ csv.tgtVals ∧ fuzF.threshold * 100 ≤ scorerF code "good")
    ∧ (⟨some "miss", none⟩ : MRow).tgt = none := by
  have h1 : ((100:Rat) ≤ 100) = True := by norm_num
  have h2 : ((100:Rat) ≤ 10) = False := by norm_num
  have h : applyFuzzy fsF scorerF fuzF [⟨some "hit", none⟩, ⟨some "miss", none⟩]
      = .ok ([⟨some "hit", some "good"⟩, ⟨some "miss", none⟩], [.fuzzyMapping 1]) := by
    simp +decide [applyFuzzy, fsF, fuzF, scorerF, fuzzyDict, unresolvedCodes, uniqueList,
      uniqueAux, extractOne, bestMatchAux, resolveWith, dictLookup, h1, h2]
  have hthm := C4_fuzzy_threshold fsF scorerF fuzF
    [⟨some "hit", none⟩, ⟨some "miss", none⟩]
    [⟨some "hit", some "good"⟩, ⟨some "miss", none⟩] [.fuzzyMapping 1] h
  constructor
  · exact hthm.1 0 ⟨some "hit", none⟩ ⟨some "hit", some "good"⟩ "good" rfl rfl rfl rfl
  · refine hthm.2 1 ⟨some "miss", none⟩ ⟨some "miss", none⟩ "miss" rfl rfl rfl rfl ?_
    intro f csv hf hfs c hc
    injection hf with hf
    subst hf
    rw [show fsF "causes.csv" = some ⟨["target_code"], [], ["good"]⟩ from rfl] at hfs
    injection hfs with hfs
    subst hfs
    simp at hc
    subst hc
    have hms : scorerF "miss" "good" = 10 := by simp +decide [scorerF]
    rw [hms]
    norm_num [fuzF]

/-- Witness for C10 at concrete inputs: a row with a missing code is left
untouched by a fuzzy and by an ai application, and a concrete review row
traces back to a row holding its source code. -/
theorem C10_missing_source_codes_witness :
    (∃ r2, ([⟨none, none⟩] : List MRow)[0]? = some r2 ∧ r2.tgt = (none : Option String))
    ∧ (∃ r2, (applyAI suggest8 ai8 [⟨none, none⟩]).1[0]? = some r2
        ∧ r2.tgt = (none : Option String))
    ∧ ∃ row ∈ ([⟨some "X", none⟩, ⟨none, none⟩] : List MRow),
        row.src = some (⟨"X", 1, "Cardiovascular diseases", 1, ""⟩ : ReviewRow).source_code := by
  refine ⟨?_, ?_, ?_⟩
  · exact C10_missing_source_codes.1 fsF scorerF fuzF [⟨none, none⟩] [⟨none, none⟩]
      [.fuzzyMapping 0] 0 ⟨none, none⟩ rfl rfl rfl
  · exact C10_missing_source_codes.2.1 suggest8 ai8 [⟨none, none⟩] 0 ⟨none, none⟩ rfl rfl
  · exact C10_missing_source_codes.2.2 (some suggest8) [⟨some "X", none⟩, ⟨none, none⟩]
      ⟨"X", 1, "Cardiovascular diseases", 1, ""⟩ (by decide)

/-- C8 counterexample: two rows sharing the code AB are both resolved by
one fuzzy application (2 newly resolved rows), but the logged
`mapped_count` is the size of the mapping dict, namely 1. -/
theorem C8_counterexample :
    applyFuzzy fs8 scorer8 fuz8 [⟨some "AB", none⟩, ⟨some "AB", none⟩]
      = .ok ([⟨some "AB", some "T"⟩, ⟨some "AB", some "T"⟩], [.fuzzyMapping 1])
    ∧ newlyResolved [⟨some "AB", none⟩, ⟨some "AB", none⟩]
        [⟨some "AB", some "T"⟩, ⟨some "AB", some "T"⟩] = 2
    ∧ (1 : Nat) ≠ 2 := by
  refine ⟨?_, by decide, by decide⟩
  have h1 : ((100:Rat) ≤ 100) = True := by norm_num
  simp +decide [applyFuzzy, fs8, fuz8, scorer8, fuzzyDict, unresolvedCodes, uniqueList,
    uniqueAux, extractOne, bestMatchAux, resolveWith, dictLookup, h1, newlyResolved]

/-- C8 amended: the direct source logs the count of newly resolved rows,
whereas the fuzzy and ai sources log the count of distinct source codes
they resolved (the size of their mapping dict), which can be smaller than
the number of rows affected. -/
theorem C8_logged_counts_amended :
    (∀ (fs : String → Option CSVFile) (source : MappingSource)
       (data t2 : List MRow) (logs : List MLog) (n : Nat),
       applyDirect fs source data = .ok (t2, logs) →
       MLog.directMapping n ∈ logs → n = newlyResolved data t2)
    ∧ (∀ (fs : String → Option CSVFile) (scorer : String → String → Rat)
       (source : MappingSource) (data t2 : List MRow) (logs : List MLog) (n : Nat),
       applyFuzzy fs scorer source data = .ok (t2, logs) →
       MLog.fuzzyMapping n ∈ logs →
       ∃ f csv, source.file = some f ∧ fs f = some csv ∧
         n = (unresolvedCodes data).countP
           (fun c => (extractOne scorer c csv.tgtVals (source.threshold * 100)).isSome))
    ∧ (∀ (suggest : String → List Suggestion) (source : MappingSource)
       (data t2 : List MRow) (logs : List MLog) (n : Nat),
       applyAI suggest source data = (t2, logs) →
       MLog.aiMappingAuto n ∈ logs →
       n = (unresolvedCodes data).countP
         (fun c => match suggest c with
           | [] => false
           | s :: _ => decide (source.threshold ≤ s.confidence))) := by
  refine ⟨?_, ?_, ?_⟩
  · intro fs source data t2 logs n h hmem
    rcases applyDirect_cases fs source data t2 logs h with
      ⟨ht2, hbr⟩ | ⟨f, csv, hf, hfs, hcols, ht2, hlogs⟩
    · rcases hbr with ⟨_, hlogs⟩ | ⟨f, _, _, hlogs⟩ <;> rw [hlogs] at hmem <;> simp at hmem
    · rw [hlogs] at hmem
      simp at hmem
      rw [hmem, ht2]
      exact newlyResolved_map _ data
  · intro fs scorer source data t2 logs n h hmem
    rcases applyFuzzy_cases fs scorer source data t2 logs h with
      ⟨_, hlogs, _⟩ | ⟨f, csv, hf, hfs, hcol, ht2, hlogs⟩
    · rw [hlogs] at hmem
      simp at hmem
    · rw [hlogs] at hmem
      simp at hmem
      refine ⟨f, csv, hf, hfs, ?_⟩
      rw [hmem]
      unfold fuzzyDict
      rw [length_filterMap_eq_countP]
      congr 1
      funext c
      cases he : extractOne scorer c csv.tgtVals (source.threshold * 100) <;> simp [he]
  · intro suggest source data t2 logs n h hmem
    rcases applyAI_cases suggest source data with hai | ⟨hne, hai⟩
    · rw [hai] at h
      simp only [Prod.mk.injEq] at h
      rw [← h.2] at hmem
      simp at hmem
    · rw [hai] at h
      simp only [Prod.mk.injEq] at h
      rw [← h.2] at hmem
      simp at hmem
      rw [hmem]
      unfold aiDict
      rw [length_filterMap_eq_countP]
      congr 1
      funext c
      cases hs : suggest c with
      | nil => simp
      | cons s ss => by_cases hc : source.threshold ≤ s.confidence <;> simp [hc]

/-- Witness for C8 amended at concrete runs of all three source kinds. -/
theorem C8_logged_counts_amended_witness :
    (1 : Nat) = newlyResolved [⟨some "A00", none⟩, ⟨some "ZZZ", none⟩]
        [⟨some "A00", some "Cholera"⟩, ⟨some "ZZZ", none⟩]
    ∧ (∃ f csv, fuz8.file = some f ∧ fs8 f = some csv ∧
        (1 : Nat) = (unresolvedCodes [⟨some "AB", none⟩, ⟨some "AB", none⟩]).countP
          (fun c => (extractOne scorer8 c csv.tgtVals (fuz8.threshold * 100)).isSome))
    ∧ (1 : Nat) = (unresolvedCodes [⟨some "X", none⟩]).countP
        (fun c => match suggest8 c with
          | [] => false
          | s :: _ => decide (ai8.threshold ≤ s.confidence)) := by
  refine ⟨?_, ?_, ?_⟩
  · exact C8_logged_counts_amended.1 fsC1 dirC1 [⟨some "A00", none⟩, ⟨some "ZZZ", none⟩]
      [⟨some "A00", some "Cholera"⟩, ⟨some "ZZZ", none⟩] [.directMapping 1] 1 rfl (by simp)
  · have h1 : ((100:Rat) ≤ 100) = True := by norm_num
    have h : applyFuzzy fs8 scorer8 fuz8 [⟨some "AB", none⟩, ⟨some "AB", none⟩]
        = .ok ([⟨some "AB", some "T"⟩, ⟨some "AB", some "T"⟩], [.fuzzyMapping 1]) := by
      simp +decide [applyFuzzy, fs8, fuz8, scorer8, fuzzyDict, unresolvedCodes, uniqueList,
        uniqueAux, extractOne, bestMatchAux, resolveWith, dictLookup, h1]
    exact C8_logged_counts_amended.2.1 fs8 scorer8 fuz8
      [⟨some "AB", none⟩, ⟨some "AB", none⟩]
      [⟨some "AB", some "T"⟩, ⟨some "AB", some "T"⟩] [.fuzzyMapping 1] 1 h (by simp)
  · exact C8_logged_counts_amended.2.2 suggest8 ai8 [⟨some "X", none⟩]
      [⟨some "X", some "Cardiovascular diseases"⟩] [.aiMappingAuto 1] 1 rfl (by simp)

theorem issuePenalty_eq (issues : List Issue) :
    issuePenalty issues =
      100 - 10 * (issues.countP (fun i => decide (i.severity = "error")) : Rat)
        - 2 * (issues.countP (fun i => decide (i.severity = "warning")) : Rat) := by
  have haux : ∀ (l : List Issue) (init : Rat),
      l.foldl (fun s i =>
        if i.severity = "error" then s - 10
        else if i.severity = "warning" then s - 2 else s) init
      = init - 10 * (l.countP (fun i => decide (i.severity = "error")) : Rat)
        - 2 * (l.countP (fun i => decide (i.severity = "warning")) : Rat) := by
    intro l
    induction l with
    | nil => intro init; simp
    | cons i l ih =>
      intro init
      simp only [List.foldl_cons, List.countP_cons, ih]
      by_cases h1 : i.severity = "error"
      · have h2 : ¬ i.severity = "warning" := by simp [h1]
        simp [h1, h2]
        ring
      · by_cases h2 : i.severity = "warning"
        · simp [h1, h2]
          ring
        · simp [h1, h2]
  exact haux issues 100

/-- C7 counterexample: the empty table has zero missing cells, yet with an
empty check list the quality score is 0, not 100 — the empty-table special
case bypasses the scoring formula. -/
theorem C7_counterexample :
    missingCount ⟨3, []⟩ = 0
    ∧ (run_checks (fun _ => none) ⟨3, []⟩ []).qualityScore ≠ 100 := by
  refine ⟨rfl, ?_⟩
  have h : (run_checks (fun _ => none) ⟨3, []⟩ []).qualityScore = 0 := rfl
  rw [h]
  norm_num

/-- C7 amended: the quality score is always clamped into the interval from
0 to 100; for a table with at least one row it equals the stated blend of
the issue penalties with the completeness bonus, and an empty check list
with zero missing cells then scores exactly 100 (the zero-row table is the
exception, scoring 0). -/
theorem C7_quality_score_amended
    (lib : String → Option (QTable → Except String (List Issue)))
    (data : QTable) (checks : List QualityCheck) :
    (0 ≤ (run_checks lib data checks).qualityScore
      ∧ (run_checks lib data checks).qualityScore ≤ 100)
    ∧ (data.cells.length ≠ 0 →
      (run_checks lib data checks).qualityScore =
        max 0 (min 100
          ((100 - 10 * (((run_checks lib data checks).issuesFound.countP
              (fun i => decide (i.severity = "error"))) : Rat)
            - 2 * (((run_checks lib data checks).issuesFound.countP
              (fun i => decide (i.severity = "warning"))) : Rat)) * (7 / 10)
          + (1 - (missingCount data : Rat) /
              ((data.cells.length : Rat) * (data.ncols : Rat))) * 100 * (3 / 10))))
    ∧ (data.cells.length ≠ 0 → missingCount data = 0 →
      (run_checks lib data []).qualityScore = 100) := by
  refine ⟨?_, ?_, ?_⟩
  · show 0 ≤ calculateQualityScore data (gatherIssues lib data checks).2
      ∧ calculateQualityScore data (gatherIssues lib data checks).2 ≤ 100
    unfold calculateQualityScore
    split
    · exact ⟨le_refl 0, by norm_num⟩
    · exact ⟨le_max_left 0 _, max_le (by norm_num) (min_le_left _ _)⟩
  · intro hne
    show calculateQualityScore data (gatherIssues lib data checks).2 = _
    unfold calculateQualityScore
    rw [if_neg hne, issuePenalty_eq]
    rfl
  · intro hne hmiss
    show calculateQualityScore data (gatherIssues lib data ([] : List QualityCheck)).2 = 100
    have hg : gatherIssues lib data ([] : List QualityCheck) = ([], []) := rfl
    rw [hg]
    unfold calculateQualityScore
    rw [if_neg hne, hmiss]
    norm_num [issuePenalty]

/-- Witness for C7 amended: a one-by-one table with no missing cell and no
checks scores exactly 100. -/
theorem C7_quality_score_amended_witness :
    (run_checks (fun _ => none) ⟨1, [[false]]⟩ []).qualityScore = 100 :=
  (C7_quality_score_amended (fun _ => none) ⟨1, [[false]]⟩ []).2.2 (by decide) (by decide)

/-- C2 counterexample: in the five-row end-to-end scenario with only a
direct source, two codes (J44, K92) remain unresolved, yet no review
artifact is produced, because review rows are only built once an AI
assistant has been instantiated. -/
theorem C2_counterexample :
    apply_mappings envC2 [directC2] dataC2 = .ok
      ⟨[⟨some "A00", some "Cholera"⟩, ⟨some "B20", some "HIV/AIDS"⟩,
        ⟨some "I21", some "Ischemic heart disease"⟩, ⟨some "J44", none⟩,
        ⟨some "K92", none⟩],
       [.directMapping 3, .mappingComplete 5 3 2], none⟩
    ∧ (apply_mappings envC2 [directC2] dataC2).toOption.map
        (fun res => (res.table.countP (fun r => r.tgt.isNone), res.reviewFile))
      = some (2, none) := by
  exact ⟨rfl, by decide⟩

/-- C2 amended: the review artifact is produced only when an enabled ai
source has run (so the AI assistant exists); a run whose enabled sources
are all non-ai never writes one, and whenever an artifact is written it is
non-empty and consists of the review rows built from the still-unresolved
rows with the AI suggester. -/
theorem C2_review_only_with_ai (env : EngineEnv) (sources : List MappingSource)
    (srcCells : List (Option String)) (res : MapResult)
    (h : apply_mappings env sources srcCells = .ok res) :
    ((∀ s ∈ sources, s.enabled = true → s.type ≠ SourceType.ai) →
      res.reviewFile = none)
    ∧ (∀ rows, res.reviewFile = some rows →
        rows ≠ [] ∧
        rows = buildReviewRows (some env.suggest)
          (res.table.filter (fun r => r.tgt.isNone))) := by
  unfold apply_mappings at h
  simp only [] at h
  split at h
  · exact absurd h (by simp)
  · next tla heq =>
    simp only [Except.ok.injEq] at h
    subst h
    constructor
    · intro hno
      have hflag := runSources_ai_flag env sources
        (srcCells.map (fun s => MRow.mk s none)) false tla heq
      have hfalse : tla.2.2 = false := by
        rw [hflag]
        simp only [Bool.false_or, List.any_eq_false, Bool.and_eq_true,
          decide_eq_true_eq, not_and]
        intro s hs hen
        exact hno s hs hen
      simp [hfalse, buildReviewRows]
    · intro rows hrows
      cases htla : tla.2.2 with
      | false =>
        rw [htla] at hrows
        simp [buildReviewRows] at hrows
      | true =>
        rw [htla] at hrows
        simp only [if_true] at hrows
        split at hrows
        · next hlen =>
          split at hrows
          · next hemp => exact absurd hrows (by simp)
          · next hemp =>
            injection hrows with hrows
            subst hrows
            refine ⟨by simpa [List.isEmpty_iff] using hemp, rfl⟩
        · next hlen =>
          split at hrows
          · next hemp => exact absurd hrows (by simp)
          · next hemp => exact absurd rfl hemp

/-- Witness for C2 amended: the direct-only end-to-end run has no enabled
ai source, so the amended theorem yields the absent review artifact. -/
theorem C2_review_only_with_ai_witness :
    (apply_mappings envC2 [directC2] dataC2).toOption.map MapResult.reviewFile
      = some none := by
  have h : apply_mappings envC2 [directC2] dataC2 = .ok
      ⟨[⟨some "A00", some "Cholera"⟩, ⟨some "B20", some "HIV/AIDS"⟩,
        ⟨some "I21", some "Ischemic heart disease"⟩, ⟨some "J44", none⟩,
        ⟨some "K92", none⟩],
       [.directMapping 3, .mappingComplete 5 3 2], none⟩ := rfl
  have hno := (C2_review_only_with_ai envC2 [directC2] dataC2 _ h).1
    (by
      intro s hs hen
      simp only [List.mem_singleton] at hs
      subst hs
      decide)
  rw [h]
  show some (MapResult.reviewFile
      ⟨[⟨some "A00", some "Cholera"⟩, ⟨some "B20", some "HIV/AIDS"⟩,
        ⟨some "I21", some "Ischemic heart disease"⟩, ⟨some "J44", none⟩,
        ⟨some "K92", none⟩],
       [.directMapping 3, .mappingComplete 5 3 2], none⟩)
    = some none
  rw [hno]

end AutoGBD
